import Mathlib

/-!
# Verification of `acapy_plugin_toolbox/util.py`

A shallow embedding of the utility module of the `aca-plugin-toolbox`
repository, together with proofs of its specified properties.

The module under verification provides:

* `timestamp_utc_iso` — the current UTC instant rendered in ISO-8601 with a
  trailing `Z` designator, at a configurable precision (`timespec`);
* `datetime_from_iso` — parsing of ISO-8601 timestamps, normalising a single
  space separator to `T` before handing the text to the parser;
* `require_role` / `admin_only` — a role gate wrapping handler functions:
  on a missing connection record or a role mismatch it sends exactly one
  ProblemReport and returns, otherwise it calls the wrapped function;
* `generate_model_schema` — a factory producing a paired message model type
  and schema type from a declarative descriptor;
* `generic_init` — the default initializer of generated models, filling the
  declared slots from keyword arguments and forwarding the remainder.

Python `datetime.isoformat`, `dateutil.parser.isoparse`, and the host
framework's base classes are external dependencies of the module; they are
modelled here from their documented behaviour (see the doc comments of
`pyIsoformat`, `isoparse`, `prependedDefaultNamespace`).  The model of
`isoparse` is restricted to the extended `YYYY-MM-DD{sep}HH[:MM[:SS[.ffffff]]]`
format with an optional trailing `Z` or `+HH[:MM]` offset, which covers every
string relevant to the claims below.
-/

/-! ## Timestamps: data model -/

/-- Embedding of a Python `datetime.datetime` value.  The `tz` field is the
UTC offset in minutes when the value is timezone-aware and `none` when the
value is naive. -/
structure PyDateTime where
  year : Nat
  month : Nat
  day : Nat
  hour : Nat
  minute : Nat
  second : Nat
  microsecond : Nat
  tz : Option Int
deriving DecidableEq

/-- Python `datetime` field invariants (`MINYEAR = 1`, `MAXYEAR = 9999`,
calendar-valid day, time components in range). -/
def dateValid (y mo d : Nat) : Prop :=
  1 ≤ y ∧ y ≤ 9999 ∧ 1 ≤ mo ∧ mo ≤ 12 ∧ 1 ≤ d ∧ d ≤ daysInMonth y mo
where
  /-- Gregorian leap-year rule. -/
  isLeapYear (y : Nat) : Bool := y % 4 == 0 && (y % 100 != 0 || y % 400 == 0)
  /-- Days in a Gregorian month. -/
  daysInMonth (y m : Nat) : Nat :=
    if m = 2 then (if isLeapYear y then 29 else 28)
    else if m = 4 ∨ m = 6 ∨ m = 9 ∨ m = 11 then 30
    else 31

instance (y mo d : Nat) : Decidable (dateValid y mo d) := by
  unfold dateValid; infer_instance

/-- All Python `datetime` invariants of a `PyDateTime` value. -/
def PyDateTime.valid (dt : PyDateTime) : Prop :=
  dateValid dt.year dt.month dt.day ∧ dt.hour ≤ 23 ∧ dt.minute ≤ 59 ∧
    dt.second ≤ 59 ∧ dt.microsecond ≤ 999999

instance (dt : PyDateTime) : Decidable dt.valid := by
  unfold PyDateTime.valid; infer_instance

/-! ## Timestamps: formatting (model of `datetime.isoformat`) -/

/-- The decimal digit character of `n % 10`. -/
def digitChar (n : Nat) : Char :=
  match n % 10 with
  | 0 => '0' | 1 => '1' | 2 => '2' | 3 => '3' | 4 => '4'
  | 5 => '5' | 6 => '6' | 7 => '7' | 8 => '8' | _ => '9'

/-- Two-digit zero-padded decimal rendering (`%02d` for `n < 100`). -/
def pad2 (n : Nat) : List Char := [digitChar (n / 10), digitChar n]

/-- Three-digit zero-padded decimal rendering (`%03d` for `n < 1000`). -/
def pad3 (n : Nat) : List Char := [digitChar (n / 100), digitChar (n / 10), digitChar n]

/-- Four-digit zero-padded decimal rendering (`%04d` for `n < 10000`). -/
def pad4 (n : Nat) : List Char :=
  [digitChar (n / 1000), digitChar (n / 100), digitChar (n / 10), digitChar n]

/-- Six-digit zero-padded decimal rendering (`%06d` for `n < 1000000`). -/
def pad6 (n : Nat) : List Char :=
  [digitChar (n / 100000), digitChar (n / 10000), digitChar (n / 1000),
   digitChar (n / 100), digitChar (n / 10), digitChar n]

/-- The `YYYY-MM-DD` date part of `datetime.isoformat`. -/
def dateChars (dt : PyDateTime) : List Char :=
  pad4 dt.year ++ '-' :: pad2 dt.month ++ '-' :: pad2 dt.day

/-- The time part of `datetime.isoformat` for a given `timespec`, following
the Python documentation: `hours` → `HH`, `minutes` → `HH:MM`, `seconds` →
`HH:MM:SS`, `milliseconds` → `HH:MM:SS.fff` (microseconds truncated by
integer division), `microseconds` → `HH:MM:SS.ffffff`, `auto` → `seconds`
when `microsecond == 0` and `microseconds` otherwise; any other `timespec`
raises `ValueError`, modelled as `none`. -/
def timePartChars (dt : PyDateTime) (timespec : String) : Option (List Char) :=
  match timespec with
  | "hours" => some (pad2 dt.hour)
  | "minutes" => some (pad2 dt.hour ++ ':' :: pad2 dt.minute)
  | "seconds" => some (pad2 dt.hour ++ ':' :: pad2 dt.minute ++ ':' :: pad2 dt.second)
  | "milliseconds" =>
    some (pad2 dt.hour ++ ':' :: pad2 dt.minute ++ ':' :: pad2 dt.second ++
      '.' :: pad3 (dt.microsecond / 1000))
  | "microseconds" =>
    some (pad2 dt.hour ++ ':' :: pad2 dt.minute ++ ':' :: pad2 dt.second ++
      '.' :: pad6 dt.microsecond)
  | "auto" =>
    some (if dt.microsecond = 0 then
      pad2 dt.hour ++ ':' :: pad2 dt.minute ++ ':' :: pad2 dt.second
    else
      pad2 dt.hour ++ ':' :: pad2 dt.minute ++ ':' :: pad2 dt.second ++
        '.' :: pad6 dt.microsecond)
  | _ => none

/-- The UTC-offset part of `datetime.isoformat`: empty for a naive value,
`±HH:MM` for an aware value (the only offset used by the module is UTC,
rendered `+00:00`). -/
def offsetChars : Option Int → List Char
  | none => []
  | some ofs =>
    (if ofs < 0 then '-' else '+') ::
      pad2 (ofs.natAbs / 60) ++ ':' :: pad2 (ofs.natAbs % 60)

/-- Model of `datetime.isoformat(timespec=...)`:
date part, `T`, time part, then the offset part. -/
def pyIsoformat (dt : PyDateTime) (timespec : String) : Option (List Char) :=
  (timePartChars dt timespec).map
    (fun t => dateChars dt ++ 'T' :: t ++ offsetChars dt.tz)

/-- Model of Python `str.replace("+00:00", "Z")`: replaces every
(left-to-right, non-overlapping) occurrence of `+00:00` with `Z`. -/
def replaceZ : List Char → List Char
  | '+' :: '0' :: '0' :: ':' :: '0' :: '0' :: rest => 'Z' :: replaceZ rest
  | c :: rest => c :: replaceZ rest
  | [] => []

/-- Embedding of `timestamp_utc_iso(timespec)` from `util.py`.  The current
instant `datetime.utcnow()` is the explicit argument `now` (a naive value
holding the current UTC time); the function stamps it with the UTC timezone
(`.replace(tzinfo=timezone.utc)`), renders it with `isoformat(timespec=...)`
and replaces the `+00:00` offset with `Z`. -/
def timestamp_utc_iso (now : PyDateTime) (timespec : String) : Option String :=
  (pyIsoformat { now with tz := some 0 } timespec).map
    (fun cs => String.mk (replaceZ cs))

/-- `timestamp_utc_iso` invoked without an explicit `timespec`: the Python
signature declares the default value `'seconds'`. -/
def timestamp_utc_iso_default (now : PyDateTime) : Option String :=
  timestamp_utc_iso now "seconds"

/-! ## Timestamps: parsing (model of `dateutil.parser.isoparse`) -/

/-- Consume one expected character. -/
def expectChar (c : Char) : List Char → Option (List Char)
  | x :: r => if x = c then some r else none
  | [] => none

/-- The numeric value of a decimal digit character. -/
def digitVal (c : Char) : Nat := c.toNat - 48

/-- Consume exactly two decimal digits. -/
def parse2 : List Char → Option (Nat × List Char)
  | c1 :: c2 :: r =>
    if c1.isDigit && c2.isDigit then
      some (digitVal c1 * 10 + digitVal c2, r)
    else none
  | _ => none

/-- Consume exactly four decimal digits. -/
def parse4 : List Char → Option (Nat × List Char)
  | c1 :: c2 :: c3 :: c4 :: r =>
    if c1.isDigit && c2.isDigit && c3.isDigit && c4.isDigit then
      some (((digitVal c1 * 10 + digitVal c2) * 10 + digitVal c3) * 10 + digitVal c4, r)
    else none
  | _ => none

/-- Decimal value of a digit string. -/
def digitsVal (ds : List Char) : Nat := ds.foldl (fun a c => a * 10 + digitVal c) 0

/-- Microseconds denoted by a fractional-seconds digit string: the first six
digits, scaled (`dateutil` reads at most six fractional digits). -/
def fracToMicro (ds : List Char) : Nat :=
  digitsVal (ds.take 6) * 10 ^ (6 - (ds.take 6).length)

/-- Parse the extended-format time component
`HH[:MM[:SS[.ffffff]]]`, returning hour, minute, second, microsecond and the
unconsumed remainder.  Components absent from the text are zero. -/
def parseTime (s : List Char) : Option (Nat × Nat × Nat × Nat × List Char) :=
  match parse2 s with
  | none => none
  | some (hh, r1) =>
    match r1 with
    | [] => some (hh, 0, 0, 0, r1)
    | c1 :: r2 =>
      if c1 = ':' then
        match parse2 r2 with
        | none => none
        | some (mm, r3) =>
          match r3 with
          | [] => some (hh, mm, 0, 0, r3)
          | c2 :: r4 =>
            if c2 = ':' then
              match parse2 r4 with
              | none => none
              | some (ss, r5) =>
                match r5 with
                | [] => some (hh, mm, ss, 0, r5)
                | c3 :: r6 =>
                  if c3 = '.' then
                    if (r6.takeWhile Char.isDigit).isEmpty then none
                    else
                      some (hh, mm, ss, fracToMicro (r6.takeWhile Char.isDigit),
                        r6.dropWhile Char.isDigit)
                  else some (hh, mm, ss, 0, r5)
            else some (hh, mm, 0, 0, r3)
      else some (hh, 0, 0, 0, r1)

/-- Parse a numeric UTC offset `HH[:MM]` into minutes. -/
def parseOffsetMin (s : List Char) : Option (Nat × List Char) :=
  match parse2 s with
  | none => none
  | some (hh, r1) =>
    match r1 with
    | ':' :: r2 =>
      match parse2 r2 with
      | none => none
      | some (mm, r3) => some (hh * 60 + mm, r3)
    | _ => some (hh * 60, r1)

/-- Parse an optional timezone designator: `Z` is UTC (offset `0`, exactly
as `dateutil` maps both `Z` and `+00:00` to `tz.UTC`), `+`/`-` introduce a
numeric offset, and an absent designator leaves the value naive. -/
def parseTz : List Char → Option (Option Int × List Char)
  | [] => some (none, [])
  | c :: r =>
    if c = 'Z' then some (some 0, r)
    else if c = '+' then (parseOffsetMin r).map (fun p => (some (p.1 : Int), p.2))
    else if c = '-' then (parseOffsetMin r).map (fun p => (some (-(p.1 : Int)), p.2))
    else some (none, c :: r)

/-- Model of `dateutil.parser.isoparse`, restricted to the extended format:
a full `YYYY-MM-DD` date, optionally followed by a single arbitrary
separator character (per the `dateutil` documentation the separator may be
any single character), a time `HH[:MM[:SS[.ffffff]]]`, and an optional
timezone designator.  The text must be consumed entirely; component ranges
are validated exactly as the `datetime` constructor does.  A text without a
timezone designator yields a naive value (`tz = none`), matching the
documented `dateutil` behaviour. -/
def isoparse (s : List Char) : Option PyDateTime :=
  match parse4 s with
  | none => none
  | some (y, r1) =>
  match expectChar '-' r1 with
  | none => none
  | some r2 =>
  match parse2 r2 with
  | none => none
  | some (mo, r3) =>
  match expectChar '-' r3 with
  | none => none
  | some r4 =>
  match parse2 r4 with
  | none => none
  | some (d, r5) =>
  match r5 with
  | [] =>
    if dateValid y mo d then some ⟨y, mo, d, 0, 0, 0, 0, none⟩ else none
  | _ :: r6 =>
    match parseTime r6 with
    | none => none
    | some (hh, mm, ss, us, r7) =>
    match parseTz r7 with
    | none => none
    | some (tz, r8) =>
      if r8 = [] ∧ dateValid y mo d ∧ hh ≤ 23 ∧ mm ≤ 59 ∧ ss ≤ 59 then
        some ⟨y, mo, d, hh, mm, ss, us, tz⟩
      else none

/-- Model of Python `str.replace(' ', 'T', 1)`: replace the first space,
if any, leaving every later character (including later spaces) intact. -/
def replaceFirstSpace : List Char → List Char
  | [] => []
  | c :: r => if c = ' ' then 'T' :: r else c :: replaceFirstSpace r

/-- Embedding of `datetime_from_iso(timestamp)` from `util.py`:
normalise one space to `T`, then parse with `isoparse`.  A parse failure
(`None` here) models the `ValueError` raised by `isoparse`, which the
function propagates to its caller. -/
def datetime_from_iso (timestamp : String) : Option PyDateTime :=
  isoparse (replaceFirstSpace timestamp.data)

/-- The instant `timestamp_utc_iso` encodes, truncated to the precision of
the given `timespec` and stamped UTC: the sub-precision components are
zeroed (for `milliseconds`, the microseconds are truncated to whole
milliseconds), and `auto`/`microseconds` keep the full precision. -/
def truncUtc (dt : PyDateTime) (timespec : String) : PyDateTime :=
  match timespec with
  | "hours" => ⟨dt.year, dt.month, dt.day, dt.hour, 0, 0, 0, some 0⟩
  | "minutes" => ⟨dt.year, dt.month, dt.day, dt.hour, dt.minute, 0, 0, some 0⟩
  | "seconds" => ⟨dt.year, dt.month, dt.day, dt.hour, dt.minute, dt.second, 0, some 0⟩
  | "milliseconds" =>
    ⟨dt.year, dt.month, dt.day, dt.hour, dt.minute, dt.second,
      dt.microsecond / 1000 * 1000, some 0⟩
  | _ =>
    ⟨dt.year, dt.month, dt.day, dt.hour, dt.minute, dt.second,
      dt.microsecond, some 0⟩

/-- The `timespec` values accepted by `datetime.isoformat`. -/
def supportedTimespecs : List String :=
  ["auto", "hours", "minutes", "seconds", "milliseconds", "microseconds"]

/-! ## The role gate (`require_role` / `admin_only`) -/

/-- The part of the host's connection record read by the gate: the peer's
recorded role (nullable). -/
structure ConnectionRecord where
  their_role : Option String
deriving DecidableEq

/-- The part of the host's `RequestContext` read by the gate: the nullable
connection record and the inbound message (of an abstract type `M`). -/
structure RequestContext (M : Type) where
  connection_record : Option ConnectionRecord
  message : M
deriving DecidableEq

/-- A ProblemReport as constructed by the gate: explanatory text, retry
policy, and the message its thread was assigned from
(`assign_thread_from`). -/
structure ProblemReport (M : Type) where
  explain_ltxt : String
  who_retries : String
  thread_parent : Option M
deriving DecidableEq

/-- Observable outcome of one invocation of a wrapped handler: the problem
reports sent through the responder by the gate, the invocations of the
wrapped function (with their arguments), and the returned value (`none`
models Python's bare `return`). -/
structure WrappedOutcome (H M R α : Type) where
  sentReplies : List (ProblemReport M)
  calls : List (H × RequestContext M × R)
  result : Option α
deriving DecidableEq

/-- The ProblemReport built on the rejection path of `require_role`:
the fixed explanation text (the concatenation of the two source string
literals), `who_retries='none'`, thread assigned from the inbound context
message. -/
def unauthorizedReport (M : Type) (msg : M) : ProblemReport M :=
  { explain_ltxt :=
      "This connection is not authorized to perform the requested action."
  , who_retries := "none"
  , thread_parent := some msg }

/-- Embedding of the wrapper produced by `require_role(role)` applied to a
handler function `func`, invoked on `(handler, context, responder)`.  When
the connection record is absent or its `their_role` differs from `role`, it
sends one ProblemReport and returns; otherwise it calls `func` with the
original arguments and returns its result. -/
def require_role {H M R α : Type} (role : String)
    (func : H → RequestContext M → R → α)
    (handler : H) (context : RequestContext M) (responder : R) :
    WrappedOutcome H M R α :=
  match context.connection_record with
  | none =>
    { sentReplies := [unauthorizedReport M context.message]
    , calls := []
    , result := none }
  | some rec =>
    if rec.their_role ≠ some role then
      { sentReplies := [unauthorizedReport M context.message]
      , calls := []
      , result := none }
    else
      { sentReplies := []
      , calls := [(handler, context, responder)]
      , result := some (func handler context responder) }

/-- Embedding of `admin_only(func)`: `require_role('admin')(func)`. -/
def admin_only {H M R α : Type} (func : H → RequestContext M → R → α)
    (handler : H) (context : RequestContext M) (responder : R) :
    WrappedOutcome H M R α :=
  require_role "admin" func handler context responder

/-! ## The model/schema factory (`generate_model_schema`) -/

/-- The `schema` argument of `generate_model_schema`: a plain dict mapping
field names to field specs (of an abstract type `F`), an object exposing a
`_declared_fields` mapping, or anything else. -/
inductive SchemaArg (F : Type) where
  | dict (fields : List (String × F))
  | declaredFields (fields : List (String × F))
  | other
deriving DecidableEq

/-- Embedding of the generated `Model` class: its `__slots__`, its name, and
the metadata attached through the inner `Meta` class. -/
structure ModelType where
  slots : List String
  name : String
  handler_class : String
  message_type : String
  schema_class : String
deriving DecidableEq

/-- Embedding of the generated `Schema` class: its name, its declared-field
mapping after `Schema._declared_fields.update(schema_dict)`, and the
back-reference `Meta.model_class` to the paired model. -/
structure SchemaType (F : Type) where
  name : String
  declared_fields : List (String × F)
  model_class : ModelType
deriving DecidableEq

/-- Model of Python `dict.update` on association lists with unique keys:
keys already present keep their position and receive the new value, new
keys are appended in order. -/
def dictUpdate {F : Type} (base upd : List (String × F)) : List (String × F) :=
  base.map (fun p => match upd.lookup p.1 with
    | some v => (p.1, v)
    | none => p) ++
    upd.filter (fun p => (base.lookup p.1).isNone)

/-- The error raised by `generate_model_schema` on a malformed `schema`
argument (the spec's ConfigurationError, realized in the source as a
`TypeError` with this message). -/
inductive FactoryError where
  | typeError (msg : String)
deriving DecidableEq

/-- Embedding of `generate_model_schema(name, handler, msg_type, schema)`.
`baseFields` are the declared fields the generated schema inherits from the
host's `AgentMessageSchema` (an external collaborator, passed explicitly).
A dict-shaped `schema` (or one exposing `_declared_fields`) yields the
model/schema pair; any other shape raises. -/
def generate_model_schema {F : Type} (baseFields : List (String × F))
    (name handler msg_type : String) (schema : SchemaArg F) :
    Except FactoryError (ModelType × SchemaType F) :=
  match schema with
  | SchemaArg.dict fields =>
    let model : ModelType :=
      { slots := fields.map Prod.fst
      , name := name
      , handler_class := handler
      , message_type := msg_type
      , schema_class := name ++ "Schema" }
    Except.ok (model,
      { name := name ++ "Schema"
      , declared_fields := dictUpdate baseFields fields
      , model_class := model })
  | SchemaArg.declaredFields fields =>
    let model : ModelType :=
      { slots := fields.map Prod.fst
      , name := name
      , handler_class := handler
      , message_type := msg_type
      , schema_class := name ++ "Schema" }
    Except.ok (model,
      { name := name ++ "Schema"
      , declared_fields := dictUpdate baseFields fields
      , model_class := model })
  | SchemaArg.other =>
    Except.error (FactoryError.typeError
      "Schema must be dict or class defining _declared_fields")

/-- The generated model's overridden `_type` property: it returns
`self.Meta.message_type` literally. -/
def ModelType.wireTypeId (m : ModelType) : String := m.message_type

/-- Modelled from the host framework: the default `_type` of an
`AgentMessage` prepends the DIDComm namespace to `Meta.message_type`; the
generated model overrides this to avoid the prepended namespace. -/
def prependedDefaultNamespace (t : String) : String :=
  "did:sov:BzCbsNYhMrjHiqZDTUASHg;spec/" ++ t

/-! ## The default initializer (`generic_init`) -/

/-- The loop of `generic_init`: for each slot in order, set the attribute to
`kwargs.get(slot)` and delete the key from `kwargs`.  Attributes and kwargs
are modelled as maps from names to optional values (Python `None` and an
absent key both map to `none`). -/
def genericInitLoop {V : Type} (slots : List String)
    (attrs kwargs : String → Option V) :
    (String → Option V) × (String → Option V) :=
  match slots with
  | [] => (attrs, kwargs)
  | s :: rest =>
    genericInitLoop rest
      (fun k => if k = s then kwargs s else attrs k)
      (fun k => if k = s then none else kwargs k)

/-- Embedding of `generic_init(instance, **kwargs)`: starting from an
instance with no attribute set, run the slot-filling loop; the first
component is the resulting attribute map, the second the keyword arguments
forwarded to the base class initializer (`super().__init__(**kwargs)`). -/
def generic_init {V : Type} (slots : List String) (kwargs : String → Option V) :
    (String → Option V) × (String → Option V) :=
  genericInitLoop slots (fun _ => none) kwargs

/-! ## Verification-side predicates -/

/-- The characters emitted in the date/time body of an ISO timestamp are
never `+` (so the offset replacement cannot touch the body) and never a
space (so the space-to-`T` normalisation cannot touch an encoded string). -/
def SafeChars (l : List Char) : Prop := ∀ c ∈ l, c ≠ '+' ∧ c ≠ ' '

/-! ## Character-level lemmas -/

theorem digitChar_props (n : Nat) :
    (digitChar n).isDigit = true ∧ digitChar n ≠ '+' ∧ digitChar n ≠ ' ' := by
  unfold digitChar
  have h : n % 10 < 10 := Nat.mod_lt _ (by norm_num)
  revert h
  generalize n % 10 = m
  intro h
  interval_cases m <;> refine ⟨by decide, by decide, by decide⟩

theorem digitVal_digitChar (n : Nat) : digitVal (digitChar n) = n % 10 := by
  unfold digitChar
  have h : n % 10 < 10 := Nat.mod_lt _ (by norm_num)
  revert h
  generalize n % 10 = m
  intro h
  interval_cases m <;> decide

theorem safeChars_append {a b : List Char} (ha : SafeChars a) (hb : SafeChars b) :
    SafeChars (a ++ b) := by
  intro c hc
  rcases List.mem_append.mp hc with h | h
  · exact ha c h
  · exact hb c h

theorem safeChars_cons {c : Char} {l : List Char} (hc : c ≠ '+' ∧ c ≠ ' ')
    (hl : SafeChars l) : SafeChars (c :: l) := by
  intro d hd
  rcases List.mem_cons.mp hd with h | h
  · exact h ▸ hc
  · exact hl d h

theorem safeChars_pad2 (n : Nat) : SafeChars (pad2 n) := by
  intro c hc
  simp only [pad2, List.mem_cons, List.not_mem_nil, or_false] at hc
  rcases hc with h | h <;> exact h ▸ (digitChar_props _).2

theorem safeChars_pad3 (n : Nat) : SafeChars (pad3 n) := by
  intro c hc
  simp only [pad3, List.mem_cons, List.not_mem_nil, or_false] at hc
  rcases hc with h | h | h <;> exact h ▸ (digitChar_props _).2

theorem safeChars_pad4 (n : Nat) : SafeChars (pad4 n) := by
  intro c hc
  simp only [pad4, List.mem_cons, List.not_mem_nil, or_false] at hc
  rcases hc with h | h | h | h <;> exact h ▸ (digitChar_props _).2

theorem safeChars_pad6 (n : Nat) : SafeChars (pad6 n) := by
  intro c hc
  simp only [pad6, List.mem_cons, List.not_mem_nil, or_false] at hc
  rcases hc with h | h | h | h | h | h <;> exact h ▸ (digitChar_props _).2

theorem safeChars_dateChars (dt : PyDateTime) : SafeChars (dateChars dt) :=
  safeChars_append
    (safeChars_append (safeChars_pad4 _) (safeChars_cons (by decide) (safeChars_pad2 _)))
    (safeChars_cons (by decide) (safeChars_pad2 _))

theorem safeChars_hm (a b : Nat) : SafeChars (pad2 a ++ ':' :: pad2 b) :=
  safeChars_append (safeChars_pad2 _) (safeChars_cons (by decide) (safeChars_pad2 _))

theorem safeChars_hms (a b c : Nat) :
    SafeChars (pad2 a ++ ':' :: pad2 b ++ ':' :: pad2 c) :=
  safeChars_append (safeChars_hm _ _) (safeChars_cons (by decide) (safeChars_pad2 _))

theorem safeChars_hmsFrac3 (a b c k : Nat) :
    SafeChars (pad2 a ++ ':' :: pad2 b ++ ':' :: pad2 c ++ '.' :: pad3 k) :=
  safeChars_append (safeChars_hms _ _ _) (safeChars_cons (by decide) (safeChars_pad3 _))

theorem safeChars_hmsFrac6 (a b c k : Nat) :
    SafeChars (pad2 a ++ ':' :: pad2 b ++ ':' :: pad2 c ++ '.' :: pad6 k) :=
  safeChars_append (safeChars_hms _ _ _) (safeChars_cons (by decide) (safeChars_pad6 _))

theorem replaceZ_no_plus (body : List Char) (h : '+' ∉ body) :
    replaceZ (body ++ "+00:00".data) = body ++ ['Z'] := by
  induction body with
  | nil => rfl
  | cons c rest ih =>
    have hc : c ≠ '+' := by
      intro hc; exact h (by simp [hc])
    have hrest : '+' ∉ rest := fun hm => h (by simp [hm])
    rw [List.cons_append, replaceZ.eq_def]
    split
    · next heq => exact absurd (by injection heq) hc
    · next c' rest' heq =>
      injection heq with h1 h2
      subst h1; subst h2
      rw [ih hrest]
      simp
    · next heq => simp at heq

theorem offsetChars_utc : offsetChars (some 0) = "+00:00".data := by decide

theorem timestamp_utc_iso_eq (now : PyDateTime) (p : String) (t : List Char)
    (ht : timePartChars { now with tz := some 0 } p = some t) (hsafe : SafeChars t) :
    timestamp_utc_iso now p = some (String.mk (dateChars now ++ 'T' :: t ++ ['Z'])) := by
  have hsafeB : SafeChars (dateChars now ++ 'T' :: t) :=
    safeChars_append (safeChars_dateChars now) (safeChars_cons (by decide) hsafe)
  have hplus : '+' ∉ dateChars now ++ 'T' :: t := fun hm => (hsafeB '+' hm).1 rfl
  unfold timestamp_utc_iso pyIsoformat
  rw [ht]
  simp only [Option.map_some']
  rw [show dateChars { now with tz := some 0 } = dateChars now from rfl,
    offsetChars_utc, replaceZ_no_plus _ hplus]

theorem pyIsoformat_eq (now : PyDateTime) (p : String) (t : List Char)
    (ht : timePartChars { now with tz := some 0 } p = some t) :
    pyIsoformat { now with tz := some 0 } p =
      some (dateChars now ++ 'T' :: t ++ "+00:00".data) := by
  unfold pyIsoformat
  rw [ht]
  simp only [Option.map_some']
  rw [show dateChars { now with tz := some 0 } = dateChars now from rfl, offsetChars_utc]

theorem no_plus_substring (body : List Char) (h : '+' ∉ body) :
    ¬ List.IsInfix ("+00:00".data) (body ++ ['Z']) := by
  intro hinf
  have hmem : '+' ∈ body ++ ['Z'] := hinf.subset (by decide)
  rcases List.mem_append.mp hmem with hm | hm
  · exact h hm
  · exact absurd (List.mem_singleton.mp hm) (by decide)

/-- C7: for every supported precision `p`, `timestamp_utc_iso` renders the
given instant as the UTC ISO-8601 date/time body truncated to `p` (the raw
`isoformat` output, `pyIsoformat`, is exactly that body followed by the
`+00:00` offset), followed by a literal trailing `Z`; the returned string
never contains the substring `+00:00`; and the `timespec` parameter
defaults to `seconds`. -/
theorem timestamp_utc_iso_spec (now : PyDateTime) (p : String)
    (hp : p ∈ supportedTimespecs) :
    ∃ t, timePartChars { now with tz := some 0 } p = some t ∧
      timestamp_utc_iso now p = some (String.mk (dateChars now ++ 'T' :: t ++ ['Z'])) ∧
      pyIsoformat { now with tz := some 0 } p =
        some (dateChars now ++ 'T' :: t ++ "+00:00".data) ∧
      ¬ List.IsInfix ("+00:00".data) (dateChars now ++ 'T' :: t ++ ['Z']) ∧
      timestamp_utc_iso_default now = timestamp_utc_iso now "seconds" := by
  have build : ∀ t : List Char, timePartChars { now with tz := some 0 } p = some t →
      SafeChars t →
      ∃ t, timePartChars { now with tz := some 0 } p = some t ∧
        timestamp_utc_iso now p = some (String.mk (dateChars now ++ 'T' :: t ++ ['Z'])) ∧
        pyIsoformat { now with tz := some 0 } p =
          some (dateChars now ++ 'T' :: t ++ "+00:00".data) ∧
        ¬ List.IsInfix ("+00:00".data) (dateChars now ++ 'T' :: t ++ ['Z']) ∧
        timestamp_utc_iso_default now = timestamp_utc_iso now "seconds" := by
    intro t ht hsafe
    have hsafeB : SafeChars (dateChars now ++ 'T' :: t) :=
      safeChars_append (safeChars_dateChars now) (safeChars_cons (by decide) hsafe)
    have hplus : '+' ∉ dateChars now ++ 'T' :: t := fun hm => (hsafeB '+' hm).1 rfl
    exact ⟨t, ht, timestamp_utc_iso_eq now p t ht hsafe, pyIsoformat_eq now p t ht,
      no_plus_substring _ hplus, rfl⟩
  simp only [supportedTimespecs, List.mem_cons, List.not_mem_nil, or_false] at hp
  rcases hp with rfl | rfl | rfl | rfl | rfl | rfl
  · refine build _ rfl ?_
    by_cases h0 : now.microsecond = 0
    · rw [show ({ now with tz := some 0 } : PyDateTime).microsecond = now.microsecond from rfl,
        if_pos h0]
      exact safeChars_hms _ _ _
    · rw [show ({ now with tz := some 0 } : PyDateTime).microsecond = now.microsecond from rfl,
        if_neg h0]
      exact safeChars_hmsFrac6 _ _ _ _
  · exact build _ rfl (safeChars_pad2 _)
  · exact build _ rfl (safeChars_hm _ _)
  · exact build _ rfl (safeChars_hms _ _ _)
  · exact build _ rfl (safeChars_hmsFrac3 _ _ _ _)
  · exact build _ rfl (safeChars_hmsFrac6 _ _ _ _)

/-- Witness for C7 at a concrete instant and precision `seconds`. -/
theorem timestamp_utc_iso_spec_witness :
    ∃ t, timePartChars { (⟨2021, 1, 2, 3, 4, 5, 0, none⟩ : PyDateTime) with tz := some 0 }
        "seconds" = some t ∧
      timestamp_utc_iso ⟨2021, 1, 2, 3, 4, 5, 0, none⟩ "seconds" =
        some (String.mk (dateChars ⟨2021, 1, 2, 3, 4, 5, 0, none⟩ ++ 'T' :: t ++ ['Z'])) ∧
      pyIsoformat { (⟨2021, 1, 2, 3, 4, 5, 0, none⟩ : PyDateTime) with tz := some 0 }
        "seconds" =
        some (dateChars ⟨2021, 1, 2, 3, 4, 5, 0, none⟩ ++ 'T' :: t ++ "+00:00".data) ∧
      ¬ List.IsInfix ("+00:00".data)
        (dateChars ⟨2021, 1, 2, 3, 4, 5, 0, none⟩ ++ 'T' :: t ++ ['Z']) ∧
      timestamp_utc_iso_default ⟨2021, 1, 2, 3, 4, 5, 0, none⟩ =
        timestamp_utc_iso ⟨2021, 1, 2, 3, 4, 5, 0, none⟩ "seconds" :=
  timestamp_utc_iso_spec ⟨2021, 1, 2, 3, 4, 5, 0, none⟩ "seconds" (by decide)

theorem digitChar_isDigit (n : Nat) : (digitChar n).isDigit = true := (digitChar_props n).1

theorem parse2_pad2 (n : Nat) (h : n < 100) (r : List Char) :
    parse2 (pad2 n ++ r) = some (n, r) := by
  simp [pad2, parse2, digitChar_isDigit, digitVal_digitChar]
  omega

theorem parse4_pad4 (n : Nat) (h : n < 10000) (r : List Char) :
    parse4 (pad4 n ++ r) = some (n, r) := by
  simp [pad4, parse4, digitChar_isDigit, digitVal_digitChar]
  omega

theorem expectChar_cons (c : Char) (r : List Char) : expectChar c (c :: r) = some r := by
  simp [expectChar]

theorem digitsVal_pad3 (k : Nat) (h : k < 1000) : digitsVal (pad3 k) = k := by
  simp [digitsVal, pad3, List.foldl, digitVal_digitChar]
  omega

theorem digitsVal_pad6 (k : Nat) (h : k < 1000000) : digitsVal (pad6 k) = k := by
  simp [digitsVal, pad6, List.foldl, digitVal_digitChar]
  omega

theorem fracToMicro_pad3 (k : Nat) (h : k < 1000) : fracToMicro (pad3 k) = k * 1000 := by
  have htake : (pad3 k).take 6 = pad3 k := by simp [pad3]
  rw [fracToMicro, htake, digitsVal_pad3 k h]
  simp [pad3]

theorem fracToMicro_pad6 (k : Nat) (h : k < 1000000) : fracToMicro (pad6 k) = k := by
  have htake : (pad6 k).take 6 = pad6 k := by simp [pad6]
  rw [fracToMicro, htake, digitsVal_pad6 k h]
  simp [pad6]

theorem takeWhile_pad3_Z (k : Nat) :
    List.takeWhile Char.isDigit (pad3 k ++ ['Z']) = pad3 k := by
  simp [pad3, List.takeWhile_cons, digitChar_isDigit]

theorem dropWhile_pad3_Z (k : Nat) :
    List.dropWhile Char.isDigit (pad3 k ++ ['Z']) = ['Z'] := by
  simp [pad3, List.dropWhile_cons, digitChar_isDigit]

theorem takeWhile_pad6_Z (k : Nat) :
    List.takeWhile Char.isDigit (pad6 k ++ ['Z']) = pad6 k := by
  simp [pad6, List.takeWhile_cons, digitChar_isDigit]

theorem dropWhile_pad6_Z (k : Nat) :
    List.dropWhile Char.isDigit (pad6 k ++ ['Z']) = ['Z'] := by
  simp [pad6, List.dropWhile_cons, digitChar_isDigit]

theorem parseTime_h (h : Nat) (hh : h < 100) :
    parseTime (pad2 h ++ ['Z']) = some (h, 0, 0, 0, ['Z']) := by
  unfold parseTime
  rw [parse2_pad2 h hh]
  rfl

theorem parseTime_hm (h m : Nat) (hh : h < 100) (hm : m < 100) :
    parseTime (pad2 h ++ ':' :: pad2 m ++ ['Z']) = some (h, m, 0, 0, ['Z']) := by
  unfold parseTime
  rw [List.append_assoc, List.cons_append, parse2_pad2 h hh]
  simp only [parse2_pad2 m hm]
  rfl

theorem parseTime_hms (h m s : Nat) (hh : h < 100) (hm : m < 100) (hs : s < 100) :
    parseTime (pad2 h ++ ':' :: pad2 m ++ ':' :: pad2 s ++ ['Z']) =
      some (h, m, s, 0, ['Z']) := by
  unfold parseTime
  simp only [List.append_assoc, List.cons_append]
  rw [parse2_pad2 h hh]
  simp only [parse2_pad2 m hm, parse2_pad2 s hs]
  rfl

theorem parseTime_hmsFrac3 (h m s k : Nat) (hh : h < 100) (hm : m < 100) (hs : s < 100)
    (hk : k < 1000) :
    parseTime (pad2 h ++ ':' :: pad2 m ++ ':' :: pad2 s ++ '.' :: pad3 k ++ ['Z']) =
      some (h, m, s, k * 1000, ['Z']) := by
  unfold parseTime
  simp only [List.append_assoc, List.cons_append]
  rw [parse2_pad2 h hh]
  simp only [parse2_pad2 m hm, parse2_pad2 s hs, takeWhile_pad3_Z, dropWhile_pad3_Z,
    fracToMicro_pad3 k hk]
  simp [pad3]

theorem parseTime_hmsFrac6 (h m s k : Nat) (hh : h < 100) (hm : m < 100) (hs : s < 100)
    (hk : k < 1000000) :
    parseTime (pad2 h ++ ':' :: pad2 m ++ ':' :: pad2 s ++ '.' :: pad6 k ++ ['Z']) =
      some (h, m, s, k, ['Z']) := by
  unfold parseTime
  simp only [List.append_assoc, List.cons_append]
  rw [parse2_pad2 h hh]
  simp only [parse2_pad2 m hm, parse2_pad2 s hs, takeWhile_pad6_Z, dropWhile_pad6_Z,
    fracToMicro_pad6 k hk]
  simp [pad6]

theorem daysInMonth_le (y m : Nat) : dateValid.daysInMonth y m ≤ 31 := by
  unfold dateValid.daysInMonth
  split_ifs <;> omega

theorem replaceFirstSpace_noop (l : List Char) (h : ∀ c ∈ l, c ≠ ' ') :
    replaceFirstSpace l = l := by
  induction l with
  | nil => rfl
  | cons c r ih =>
    rw [replaceFirstSpace, if_neg (h c (by simp)), ih (fun d hd => h d (by simp [hd]))]

theorem isoparse_full (dt : PyDateTime) (hdv : dateValid dt.year dt.month dt.day)
    (t : List Char) (hh mm ss us : Nat) (hhh : hh ≤ 23) (hmm : mm ≤ 59) (hss : ss ≤ 59)
    (htime : parseTime (t ++ ['Z']) = some (hh, mm, ss, us, ['Z'])) :
    isoparse (dateChars dt ++ 'T' :: t ++ ['Z']) =
      some ⟨dt.year, dt.month, dt.day, hh, mm, ss, us, some 0⟩ := by
  have hbound := hdv
  unfold dateValid at hbound
  obtain ⟨hy1, hy2, hmo1, hmo2, hd1, hd2⟩ := hbound
  have hdm := daysInMonth_le dt.year dt.month
  unfold isoparse
  simp only [dateChars, List.append_assoc, List.cons_append]
  rw [parse4_pad4 dt.year (by omega)]
  simp only [expectChar_cons, parse2_pad2 dt.month (by omega),
    parse2_pad2 dt.day (by omega), htime]
  rw [show parseTz ['Z'] = some (some 0, []) from rfl]
  simp only []
  rw [if_pos ⟨trivial, hdv, hhh, hmm, hss⟩]

/-- C8: for every supported precision `p`, decoding the string produced by
`timestamp_utc_iso` succeeds and yields exactly the encode-time instant
truncated to precision `p` (stamped UTC) — the round trip loses only
sub-precision detail. -/
theorem decode_encode_roundtrip (dt : PyDateTime) (p : String)
    (hp : p ∈ supportedTimespecs) (hv : dt.valid) :
    ∃ s, timestamp_utc_iso dt p = some s ∧
      datetime_from_iso s = some (truncUtc dt p) := by
  have hvb := hv
  unfold PyDateTime.valid at hvb
  obtain ⟨hdv, h23, h59, h59s, hus⟩ := hvb
  have finish : ∀ (t : List Char) (hh mm ss us : Nat),
      timePartChars { dt with tz := some 0 } p = some t → SafeChars t →
      parseTime (t ++ ['Z']) = some (hh, mm, ss, us, ['Z']) →
      hh ≤ 23 → mm ≤ 59 → ss ≤ 59 →
      some (⟨dt.year, dt.month, dt.day, hh, mm, ss, us, some 0⟩ : PyDateTime) =
        some (truncUtc dt p) →
      ∃ s, timestamp_utc_iso dt p = some s ∧
        datetime_from_iso s = some (truncUtc dt p) := by
    intro t hh mm ss us ht hsafe htime hhh hmm hss heq
    refine ⟨_, timestamp_utc_iso_eq dt p t ht hsafe, ?_⟩
    unfold datetime_from_iso
    rw [show (String.mk (dateChars dt ++ 'T' :: t ++ ['Z'])).data =
      dateChars dt ++ 'T' :: t ++ ['Z'] from rfl]
    have hsafeB : SafeChars (dateChars dt ++ 'T' :: t) :=
      safeChars_append (safeChars_dateChars dt) (safeChars_cons (by decide) hsafe)
    have hnospace : ∀ c ∈ dateChars dt ++ 'T' :: t ++ ['Z'], c ≠ ' ' := by
      intro c hc
      rcases List.mem_append.mp hc with hm | hm
      · exact (hsafeB c hm).2
      · rw [List.mem_singleton.mp hm]; decide
    rw [replaceFirstSpace_noop _ hnospace,
      isoparse_full dt hdv t hh mm ss us hhh hmm hss htime]
    exact heq
  simp only [supportedTimespecs, List.mem_cons, List.not_mem_nil, or_false] at hp
  rcases hp with rfl | rfl | rfl | rfl | rfl | rfl
  · by_cases h0 : dt.microsecond = 0
    · refine finish (pad2 dt.hour ++ ':' :: pad2 dt.minute ++ ':' :: pad2 dt.second)
        dt.hour dt.minute dt.second 0 ?_ (safeChars_hms _ _ _)
        (parseTime_hms _ _ _ (by omega) (by omega) (by omega)) h23 h59 h59s ?_
      · simp only [timePartChars]
        rw [if_pos (show ({ dt with tz := some 0 } : PyDateTime).microsecond = 0 from h0)]
      · unfold truncUtc
        rw [h0]
        rfl
    · refine finish (pad2 dt.hour ++ ':' :: pad2 dt.minute ++ ':' :: pad2 dt.second ++
          '.' :: pad6 dt.microsecond)
        dt.hour dt.minute dt.second dt.microsecond ?_ (safeChars_hmsFrac6 _ _ _ _)
        (parseTime_hmsFrac6 _ _ _ _ (by omega) (by omega) (by omega) (by omega))
        h23 h59 h59s rfl
      · simp only [timePartChars]
        rw [if_neg (show ¬ ({ dt with tz := some 0 } : PyDateTime).microsecond = 0 from h0)]
  · exact finish (pad2 dt.hour) dt.hour 0 0 0 rfl (safeChars_pad2 _)
      (parseTime_h _ (by omega)) h23 (by omega) (by omega) rfl
  · exact finish (pad2 dt.hour ++ ':' :: pad2 dt.minute) dt.hour dt.minute 0 0 rfl
      (safeChars_hm _ _) (parseTime_hm _ _ (by omega) (by omega)) h23 h59 (by omega) rfl
  · exact finish (pad2 dt.hour ++ ':' :: pad2 dt.minute ++ ':' :: pad2 dt.second)
      dt.hour dt.minute dt.second 0 rfl (safeChars_hms _ _ _)
      (parseTime_hms _ _ _ (by omega) (by omega) (by omega)) h23 h59 h59s rfl
  · exact finish (pad2 dt.hour ++ ':' :: pad2 dt.minute ++ ':' :: pad2 dt.second ++
        '.' :: pad3 (dt.microsecond / 1000))
      dt.hour dt.minute dt.second (dt.microsecond / 1000 * 1000) rfl
      (safeChars_hmsFrac3 _ _ _ _)
      (parseTime_hmsFrac3 _ _ _ _ (by omega) (by omega) (by omega) (by omega))
      h23 h59 h59s rfl
  · exact finish (pad2 dt.hour ++ ':' :: pad2 dt.minute ++ ':' :: pad2 dt.second ++
        '.' :: pad6 dt.microsecond)
      dt.hour dt.minute dt.second dt.microsecond rfl
      (safeChars_hmsFrac6 _ _ _ _)
      (parseTime_hmsFrac6 _ _ _ _ (by omega) (by omega) (by omega) (by omega))
      h23 h59 h59s rfl

/-- Witness for C8 at a concrete instant (a leap-day date) and precision
`milliseconds`. -/
theorem decode_encode_roundtrip_witness :
    ∃ s, timestamp_utc_iso ⟨2020, 2, 29, 23, 59, 58, 123456, none⟩ "milliseconds" =
        some s ∧
      datetime_from_iso s =
        some (truncUtc ⟨2020, 2, 29, 23, 59, 58, 123456, none⟩ "milliseconds") :=
  decode_encode_roundtrip ⟨2020, 2, 29, 23, 59, 58, 123456, none⟩ "milliseconds"
    (by decide) (by decide)
/-- A successful `parse2` consumes a two-character prefix. -/
theorem parse2_shape {s : List Char} {n : Nat} {r : List Char}
    (h : parse2 s = some (n, r)) : ∃ pre, s = pre ++ r := by
  match s with
  | [] => exact Option.noConfusion h
  | [c1] => exact Option.noConfusion h
  | c1 :: c2 :: r' =>
    simp only [parse2] at h
    split at h
    · simp only [Option.some.injEq, Prod.mk.injEq] at h
      obtain ⟨-, rfl⟩ := h
      exact ⟨[c1, c2], rfl⟩
    · exact Option.noConfusion h

/-- A successful `parse4` consumes a four-character prefix. -/
theorem parse4_shape {s : List Char} {n : Nat} {r : List Char}
    (h : parse4 s = some (n, r)) : ∃ pre, s = pre ++ r := by
  match s with
  | [] => exact Option.noConfusion h
  | [c1] => exact Option.noConfusion h
  | [c1, c2] => exact Option.noConfusion h
  | [c1, c2, c3] => exact Option.noConfusion h
  | c1 :: c2 :: c3 :: c4 :: r' =>
    simp only [parse4] at h
    split at h
    · simp only [Option.some.injEq, Prod.mk.injEq] at h
      obtain ⟨-, rfl⟩ := h
      exact ⟨[c1, c2, c3, c4], rfl⟩
    · exact Option.noConfusion h

/-- A successful `expectChar` consumes exactly the expected character. -/
theorem expectChar_shape {c : Char} {s r : List Char}
    (h : expectChar c s = some r) : s = c :: r := by
  match s with
  | [] => exact Option.noConfusion h
  | x :: r' =>
    simp only [expectChar] at h
    split at h
    · next hx =>
      simp only [Option.some.injEq] at h
      rw [hx, h]
    · exact Option.noConfusion h

/-- A successful `parseTime` consumes a prefix of its input. -/
theorem parseTime_shape {s : List Char} {hh mm ss us : Nat} {r : List Char}
    (h : parseTime s = some (hh, mm, ss, us, r)) : ∃ pre, s = pre ++ r := by
  unfold parseTime at h
  cases hp1 : parse2 s with
  | none => rw [hp1] at h; exact Option.noConfusion h
  | some v1 =>
    obtain ⟨n1, r1⟩ := v1
    rw [hp1] at h
    simp only [] at h
    obtain ⟨pre1, rfl⟩ := parse2_shape hp1
    cases r1 with
    | nil =>
      simp only [Option.some.injEq, Prod.mk.injEq] at h
      obtain ⟨-, -, -, -, rfl⟩ := h
      exact ⟨pre1, rfl⟩
    | cons c1 r2 =>
      simp only [] at h
      by_cases hc1 : c1 = ':'
      · subst hc1
        rw [if_pos rfl] at h
        cases hp2 : parse2 r2 with
        | none => rw [hp2] at h; exact Option.noConfusion h
        | some v2 =>
          obtain ⟨n2, r3⟩ := v2
          rw [hp2] at h
          simp only [] at h
          obtain ⟨pre2, rfl⟩ := parse2_shape hp2
          cases r3 with
          | nil =>
            simp only [Option.some.injEq, Prod.mk.injEq] at h
            obtain ⟨-, -, -, -, rfl⟩ := h
            exact ⟨pre1 ++ ':' :: pre2, by simp⟩
          | cons c2 r4 =>
            simp only [] at h
            by_cases hc2 : c2 = ':'
            · subst hc2
              rw [if_pos rfl] at h
              cases hp3 : parse2 r4 with
              | none => rw [hp3] at h; exact Option.noConfusion h
              | some v3 =>
                obtain ⟨n3, r5⟩ := v3
                rw [hp3] at h
                simp only [] at h
                obtain ⟨pre3, rfl⟩ := parse2_shape hp3
                cases r5 with
                | nil =>
                  simp only [Option.some.injEq, Prod.mk.injEq] at h
                  obtain ⟨-, -, -, -, rfl⟩ := h
                  exact ⟨pre1 ++ ':' :: (pre2 ++ ':' :: pre3), by simp⟩
                | cons c3 r6 =>
                  simp only [] at h
                  by_cases hc3 : c3 = '.'
                  · subst hc3
                    rw [if_pos rfl] at h
                    split at h
                    · exact Option.noConfusion h
                    · simp only [Option.some.injEq, Prod.mk.injEq] at h
                      obtain ⟨-, -, -, -, rfl⟩ := h
                      refine ⟨pre1 ++ ':' :: (pre2 ++ ':' :: (pre3 ++ '.' ::
                        List.takeWhile Char.isDigit r6)), ?_⟩
                      simp [List.takeWhile_append_dropWhile]
                  · rw [if_neg hc3] at h
                    simp only [Option.some.injEq, Prod.mk.injEq] at h
                    obtain ⟨-, -, -, -, rfl⟩ := h
                    exact ⟨pre1 ++ ':' :: (pre2 ++ ':' :: pre3), by simp⟩
            · rw [if_neg hc2] at h
              simp only [Option.some.injEq, Prod.mk.injEq] at h
              obtain ⟨-, -, -, -, rfl⟩ := h
              exact ⟨pre1 ++ ':' :: pre2, by simp⟩
      · rw [if_neg hc1] at h
        simp only [Option.some.injEq, Prod.mk.injEq] at h
        obtain ⟨-, -, -, -, rfl⟩ := h
        exact ⟨pre1, rfl⟩

/-- A fully-consumed timezone designator yields an aware offset exactly when
it is nonempty. -/
theorem parseTz_aware {r : List Char} {tz : Option Int}
    (h : parseTz r = some (tz, [])) : tz.isSome ↔ r ≠ [] := by
  cases r with
  | nil =>
    simp only [parseTz, Option.some.injEq, Prod.mk.injEq] at h
    obtain ⟨rfl, -⟩ := h
    simp
  | cons c r' =>
    simp only [parseTz] at h
    split_ifs at h with h1 h2 h3
    · simp only [Option.some.injEq, Prod.mk.injEq] at h
      obtain ⟨rfl, -⟩ := h
      simp
    · cases hpo : parseOffsetMin r' with
      | none => rw [hpo] at h; exact Option.noConfusion h
      | some v =>
        rw [hpo] at h
        simp only [Option.map_some', Option.some.injEq, Prod.mk.injEq] at h
        obtain ⟨rfl, -⟩ := h
        simp
    · cases hpo : parseOffsetMin r' with
      | none => rw [hpo] at h; exact Option.noConfusion h
      | some v =>
        rw [hpo] at h
        simp only [Option.map_some', Option.some.injEq, Prod.mk.injEq] at h
        obtain ⟨rfl, -⟩ := h
        simp
    · simp only [Option.some.injEq, Prod.mk.injEq] at h
      exact absurd h.2 (List.cons_ne_nil c r')

/-- A successful parse splits the text into a date/time body followed by the
(possibly empty) timezone designator, and the result is aware exactly when
that designator is nonempty. -/
theorem isoparse_tz_shape {s : List Char} {dt : PyDateTime}
    (h : isoparse s = some dt) :
    ∃ body tzp, s = body ++ tzp ∧ parseTz tzp = some (dt.tz, []) ∧
      (dt.tz.isSome ↔ tzp ≠ []) := by
  unfold isoparse at h
  cases hp4 : parse4 s with
  | none => rw [hp4] at h; exact Option.noConfusion h
  | some v =>
    obtain ⟨y, r1⟩ := v
    rw [hp4] at h
    simp only [] at h
    cases he1 : expectChar '-' r1 with
    | none => rw [he1] at h; exact Option.noConfusion h
    | some r2 =>
      rw [he1] at h
      simp only [] at h
      cases hp2 : parse2 r2 with
      | none => rw [hp2] at h; exact Option.noConfusion h
      | some v2 =>
        obtain ⟨mo, r3⟩ := v2
        rw [hp2] at h
        simp only [] at h
        cases he2 : expectChar '-' r3 with
        | none => rw [he2] at h; exact Option.noConfusion h
        | some r4 =>
          rw [he2] at h
          simp only [] at h
          cases hp2b : parse2 r4 with
          | none => rw [hp2b] at h; exact Option.noConfusion h
          | some v3 =>
            obtain ⟨d, r5⟩ := v3
            rw [hp2b] at h
            simp only [] at h
            cases r5 with
            | nil =>
              simp only [] at h
              split at h
              · simp only [Option.some.injEq] at h
                subst h
                exact ⟨s, [], by simp, rfl, by simp⟩
              · exact Option.noConfusion h
            | cons c r6 =>
              simp only [] at h
              cases hpt : parseTime r6 with
              | none => rw [hpt] at h; exact Option.noConfusion h
              | some v4 =>
                obtain ⟨hh, mm, ss, us, r7⟩ := v4
                rw [hpt] at h
                simp only [] at h
                cases hptz : parseTz r7 with
                | none => rw [hptz] at h; exact Option.noConfusion h
                | some v5 =>
                  obtain ⟨tz, r8⟩ := v5
                  rw [hptz] at h
                  simp only [] at h
                  split at h
                  · next hcond =>
                    simp only [Option.some.injEq] at h
                    subst h
                    obtain ⟨hr8, -⟩ := hcond
                    subst hr8
                    obtain ⟨pre1, rfl⟩ := parse4_shape hp4
                    have hr1 := expectChar_shape he1
                    obtain ⟨pre2, rfl⟩ := parse2_shape hp2
                    have hr3 := expectChar_shape he2
                    obtain ⟨pre3, rfl⟩ := parse2_shape hp2b
                    obtain ⟨pre4, rfl⟩ := parseTime_shape hpt
                    subst hr1
                    subst hr3
                    exact ⟨pre1 ++ '-' :: (pre2 ++ '-' :: (pre3 ++ c :: pre4)), r7,
                      by simp, hptz, parseTz_aware hptz⟩
                  · exact Option.noConfusion h

theorem replaceFirstSpace_split (pre post : List Char) (h : ' ' ∉ pre) :
    replaceFirstSpace (pre ++ ' ' :: post) = pre ++ 'T' :: post := by
  induction pre with
  | nil => simp [replaceFirstSpace]
  | cons c r ih =>
    have hc : c ≠ ' ' := fun e => h (by simp [e])
    have hr : ' ' ∉ r := fun hm => h (List.mem_cons_of_mem _ hm)
    simp only [List.cons_append, replaceFirstSpace, if_neg hc, List.append_eq]
    rw [ih hr]

/-- C9 (amended): `datetime_from_iso` normalises exactly the first space of
the text to `T`, leaving every later character (including later spaces)
intact; in consequence the `T`-separated and space-separated forms of the
same timestamp decode to equal results; on success the returned instant is
timezone-aware exactly when a nonempty trailing segment of the normalised
text is a timezone designator consumed by the parser (a text without a
designator yields a naive instant); and unrecognisable text fails with a
parse error (modelled as `none`), which the function propagates to its
caller. -/
theorem datetime_from_iso_spec :
    (∀ pre post : List Char, ' ' ∉ pre →
      replaceFirstSpace (pre ++ ' ' :: post) = pre ++ 'T' :: post) ∧
    (∀ pre post : List Char, ' ' ∉ pre → ' ' ∉ post →
      datetime_from_iso (String.mk (pre ++ ' ' :: post)) =
        datetime_from_iso (String.mk (pre ++ 'T' :: post))) ∧
    (∀ (s : String) (dt : PyDateTime), datetime_from_iso s = some dt →
      ∃ body tzp, replaceFirstSpace s.data = body ++ tzp ∧
        parseTz tzp = some (dt.tz, []) ∧ (dt.tz.isSome ↔ tzp ≠ [])) ∧
    datetime_from_iso "not a timestamp" = none := by
  refine ⟨replaceFirstSpace_split, ?_, ?_, by decide⟩
  · intro pre post hpre hpost
    unfold datetime_from_iso
    rw [show (String.mk (pre ++ ' ' :: post)).data = pre ++ ' ' :: post from rfl,
      show (String.mk (pre ++ 'T' :: post)).data = pre ++ 'T' :: post from rfl,
      replaceFirstSpace_split pre post hpre]
    rw [replaceFirstSpace_noop (pre ++ 'T' :: post) ?_]
    intro c hc
    rcases List.mem_append.mp hc with hm | hm
    · exact fun e => hpre (e ▸ hm)
    · rcases List.mem_cons.mp hm with rfl | hm
      · decide
      · exact fun e => hpost (e ▸ hm)
  · intro s dt h
    exact isoparse_tz_shape h

/-- Counterexample to C9 as stated: decoding a well-formed timestamp that
carries no timezone designator succeeds and returns a naive instant, not a
timezone-aware one. -/
theorem datetime_from_iso_naive_counterexample :
    datetime_from_iso "2021-01-02T03:04:05" = some ⟨2021, 1, 2, 3, 4, 5, 0, none⟩ ∧
    (⟨2021, 1, 2, 3, 4, 5, 0, none⟩ : PyDateTime).tz = none := by decide

/-- Witness for C9: the space-separated and `T`-separated forms of one
concrete timestamp decode identically. -/
theorem datetime_from_iso_spec_witness :
    datetime_from_iso (String.mk ("2021-01-02".data ++ ' ' :: "03:04:05".data)) =
      datetime_from_iso (String.mk ("2021-01-02".data ++ 'T' :: "03:04:05".data)) :=
  datetime_from_iso_spec.2.1 "2021-01-02".data "03:04:05".data (by decide) (by decide)

/-! ## Gate theorems (C1, C2, C3) -/

/-- Counterexample to C1 as stated: the ProblemReport sent on the rejection
path carries the source text `This connection is not authorized to perform
the requested action.` (capitalised, with a trailing period), which differs
from the text quoted in the claim. -/
theorem require_role_text_counterexample :
    (require_role "admin" (fun (_ : Unit) (_ : RequestContext String) (_ : Unit) => (0 : Nat))
        () ⟨some ⟨some "member"⟩, "msg"⟩ ()).sentReplies.map ProblemReport.explain_ltxt =
      ["This connection is not authorized to perform the requested action."] ∧
    "This connection is not authorized to perform the requested action." ≠
      "this connection is not authorized to perform the requested action" := by decide

/-- C1 (amended): whenever the connection record is absent or its recorded
role differs from the required role, the wrapper sends exactly one
ProblemReport — with explanatory text `This connection is not authorized to
perform the requested action.`, retry policy `none`, and thread correlation
assigned from the inbound context message — and returns without invoking the
wrapped function; a missing record behaves identically to a role mismatch. -/
theorem require_role_rejects {H M R α : Type} (role : String)
    (func : H → RequestContext M → R → α) (handler : H)
    (context : RequestContext M) (responder : R)
    (h : context.connection_record = none ∨
      ∃ rec, context.connection_record = some rec ∧ rec.their_role ≠ some role) :
    require_role role func handler context responder =
      { sentReplies :=
          [{ explain_ltxt := "This connection is not authorized to perform the requested action.",
             who_retries := "none",
             thread_parent := some context.message }],
        calls := [],
        result := none } := by
  rcases h with h | ⟨rec, hrec, hrole⟩
  · simp [require_role, h, unauthorizedReport]
  · simp [require_role, hrec, hrole, unauthorizedReport]

/-- Witness for C1 at a concrete rejected invocation (role `member` against
gate `requireRole admin`). -/
theorem require_role_rejects_witness :
    require_role "admin" (fun (_ : Unit) (_ : RequestContext String) (_ : Unit) => (0 : Nat))
        () ⟨some ⟨some "member"⟩, "msg"⟩ () =
      { sentReplies :=
          [{ explain_ltxt := "This connection is not authorized to perform the requested action.",
             who_retries := "none",
             thread_parent := some "msg" }],
        calls := [],
        result := none } :=
  require_role_rejects "admin" _ () ⟨some ⟨some "member"⟩, "msg"⟩ ()
    (Or.inr ⟨⟨some "member"⟩, rfl, by decide⟩)

/-- C2: when the connection record is present and its recorded role equals
the required role exactly, the wrapper invokes the wrapped function exactly
once with the original arguments unchanged, returns its result, and sends
no reply. -/
theorem require_role_forwards {H M R α : Type} (role : String)
    (func : H → RequestContext M → R → α) (handler : H)
    (context : RequestContext M) (responder : R) (rec : ConnectionRecord)
    (h1 : context.connection_record = some rec) (h2 : rec.their_role = some role) :
    require_role role func handler context responder =
      { sentReplies := []
      , calls := [(handler, context, responder)]
      , result := some (func handler context responder) } := by
  simp [require_role, h1, h2]

/-- Witness for C2 at a concrete accepted invocation. -/
theorem require_role_forwards_witness :
    require_role "admin" (fun (_ : Unit) (_ : RequestContext String) (_ : Unit) => (7 : Nat))
        () ⟨some ⟨some "admin"⟩, "msg"⟩ () =
      { sentReplies := []
      , calls := [((), ⟨some ⟨some "admin"⟩, "msg"⟩, ())]
      , result := some 7 } :=
  require_role_forwards "admin" _ () ⟨some ⟨some "admin"⟩, "msg"⟩ () ⟨some "admin"⟩ rfl rfl

/-- C3: every invocation of the wrapper takes exactly one of the two paths:
either the wrapped function runs once and no reply is sent, or exactly one
rejection reply is sent and the wrapped function does not run — never both
and never neither. -/
theorem require_role_exactly_one_path {H M R α : Type} (role : String)
    (func : H → RequestContext M → R → α) (handler : H)
    (context : RequestContext M) (responder : R) :
    (((require_role role func handler context responder).calls.length = 1 ∧
        (require_role role func handler context responder).sentReplies.length = 0) ∨
      ((require_role role func handler context responder).calls.length = 0 ∧
        (require_role role func handler context responder).sentReplies.length = 1)) ∧
    ¬ ((require_role role func handler context responder).calls.length = 1 ∧
        (require_role role func handler context responder).sentReplies.length = 1) := by
  rcases hcr : context.connection_record with - | rec
  · simp [require_role, hcr]
  · by_cases h : rec.their_role = some role
    · simp [require_role, hcr, h]
    · simp [require_role, hcr, h]

/-! ## Factory theorems (C4, C5, C6) -/

/-- C4: a `schema` argument that is neither a plain mapping nor an object
exposing a declared-fields mapping makes `generate_model_schema` fail with
the configuration error (realized as a `TypeError` in the source); the
`Except.error` result carries no model or schema type, so the failure
produces no partial result. -/
theorem generate_model_schema_rejects {F : Type} (baseFields : List (String × F))
    (name handler msg_type : String) :
    generate_model_schema baseFields name handler msg_type (SchemaArg.other : SchemaArg F) =
      Except.error (FactoryError.typeError
        "Schema must be dict or class defining _declared_fields") := rfl

theorem prependedDefaultNamespace_ne (t : String) : prependedDefaultNamespace t ≠ t := by
  intro he
  have hl := congrArg String.length he
  rw [prependedDefaultNamespace, String.length_append] at hl
  have h36 : ("did:sov:BzCbsNYhMrjHiqZDTUASHg;spec/" : String).length = 36 := rfl
  rw [h36] at hl
  omega

/-- C5: the generated model's reported wire-type identifier (`_type`) equals
the descriptor's `msg_type` verbatim; in particular it never equals the
form with the host's default namespace prepended. -/
theorem generated_model_wire_type {F : Type} (baseFields : List (String × F))
    (name handler msg_type : String) (schema : SchemaArg F)
    (m : ModelType) (s : SchemaType F)
    (h : generate_model_schema baseFields name handler msg_type schema = Except.ok (m, s)) :
    m.wireTypeId = msg_type ∧ m.wireTypeId ≠ prependedDefaultNamespace msg_type := by
  cases schema with
  | dict fields =>
    simp only [generate_model_schema, Except.ok.injEq, Prod.mk.injEq] at h
    obtain ⟨rfl, -⟩ := h
    exact ⟨rfl, (prependedDefaultNamespace_ne msg_type).symm⟩
  | declaredFields fields =>
    simp only [generate_model_schema, Except.ok.injEq, Prod.mk.injEq] at h
    obtain ⟨rfl, -⟩ := h
    exact ⟨rfl, (prependedDefaultNamespace_ne msg_type).symm⟩
  | other => exact Except.noConfusion h

/-- Witness for C5 at the descriptor of the spec's identifier-fidelity
example: the wire type is exactly `proto/1.0/ping`. -/
theorem generated_model_wire_type_witness :
    ModelType.wireTypeId ⟨[], "Ping", "x.PingHandler", "proto/1.0/ping", "PingSchema"⟩ =
      "proto/1.0/ping" ∧
    ModelType.wireTypeId ⟨[], "Ping", "x.PingHandler", "proto/1.0/ping", "PingSchema"⟩ ≠
      prependedDefaultNamespace "proto/1.0/ping" :=
  generated_model_wire_type ([] : List (String × Nat)) "Ping" "x.PingHandler"
    "proto/1.0/ping" (SchemaArg.dict [])
    ⟨[], "Ping", "x.PingHandler", "proto/1.0/ping", "PingSchema"⟩
    ⟨"PingSchema", [], ⟨[], "Ping", "x.PingHandler", "proto/1.0/ping", "PingSchema"⟩⟩ rfl

/-- C6: two build calls on the same mapping-shaped descriptor yield pairs
whose model attribute sets are exactly the descriptor's field names, whose
attached metadata (handler locator, wire message type, schema-type name)
agree across the calls and equal the descriptor's values, whose schema
declared-field mapping is the inherited base envelope fields updated with
the descriptor's fields, and whose schemas record a back-reference to their
paired model. -/
theorem generate_model_schema_shape {F : Type} (baseFields : List (String × F))
    (name handler msg_type : String) (fields : List (String × F))
    (m1 m2 : ModelType) (s1 s2 : SchemaType F)
    (h1 : generate_model_schema baseFields name handler msg_type (SchemaArg.dict fields) =
      Except.ok (m1, s1))
    (h2 : generate_model_schema baseFields name handler msg_type (SchemaArg.dict fields) =
      Except.ok (m2, s2)) :
    m1.slots = fields.map Prod.fst ∧ m2.slots = fields.map Prod.fst ∧
    m1.handler_class = m2.handler_class ∧ m1.message_type = m2.message_type ∧
    m1.schema_class = m2.schema_class ∧
    m1.handler_class = handler ∧ m1.message_type = msg_type ∧
    m1.schema_class = name ++ "Schema" ∧ s1.name = name ++ "Schema" ∧
    s1.declared_fields = dictUpdate baseFields fields ∧
    s1.model_class = m1 ∧ s2.model_class = m2 := by
  simp only [generate_model_schema, Except.ok.injEq, Prod.mk.injEq] at h1 h2
  obtain ⟨rfl, rfl⟩ := h1
  obtain ⟨rfl, rfl⟩ := h2
  exact ⟨rfl, rfl, rfl, rfl, rfl, rfl, rfl, rfl, rfl, rfl, rfl, rfl⟩

/-- Witness for C6: the built model's attribute set at a concrete two-field
descriptor. -/
theorem generate_model_schema_shape_witness :
    (⟨["a", "b"], "XYZ", "mod.XYZHandler", "pfx/xyz", "XYZSchema"⟩ : ModelType).slots =
      ["a", "b"] := by
  have h := generate_model_schema_shape ([] : List (String × Nat)) "XYZ" "mod.XYZHandler"
    "pfx/xyz" [("a", 1), ("b", 2)]
    ⟨["a", "b"], "XYZ", "mod.XYZHandler", "pfx/xyz", "XYZSchema"⟩
    ⟨["a", "b"], "XYZ", "mod.XYZHandler", "pfx/xyz", "XYZSchema"⟩
    ⟨"XYZSchema", [("a", 1), ("b", 2)],
      ⟨["a", "b"], "XYZ", "mod.XYZHandler", "pfx/xyz", "XYZSchema"⟩⟩
    ⟨"XYZSchema", [("a", 1), ("b", 2)],
      ⟨["a", "b"], "XYZ", "mod.XYZHandler", "pfx/xyz", "XYZSchema"⟩⟩
    rfl rfl
  exact h.1

/-! ## Initializer theorems (C10) -/

theorem genericInitLoop_snd {V : Type} (slots : List String) (k : String) :
    ∀ (attrs kwargs : String → Option V),
      (genericInitLoop slots attrs kwargs).2 k = if k ∈ slots then none else kwargs k := by
  induction slots with
  | nil => intro attrs kwargs; simp [genericInitLoop]
  | cons s rest ih =>
    intro attrs kwargs
    simp only [genericInitLoop]
    rw [ih]
    by_cases h1 : k ∈ rest
    · simp [h1]
    · by_cases h2 : k = s
      · simp [h1, h2]
      · simp [h1, h2]

theorem genericInitLoop_fst_not_mem {V : Type} (slots : List String) (k : String) :
    ∀ (attrs kwargs : String → Option V), k ∉ slots →
      (genericInitLoop slots attrs kwargs).1 k = attrs k := by
  induction slots with
  | nil => intro attrs kwargs _; simp [genericInitLoop]
  | cons s rest ih =>
    intro attrs kwargs hk
    simp only [genericInitLoop]
    rw [ih _ _ (fun hm => hk (List.mem_cons_of_mem _ hm))]
    have hks : ¬ k = s := fun e => hk (by rw [e]; exact List.mem_cons_self _ _)
    rw [if_neg hks]

theorem genericInitLoop_fst_mem {V : Type} (slots : List String) (k : String) :
    ∀ (attrs kwargs : String → Option V), k ∈ slots → slots.Nodup →
      (genericInitLoop slots attrs kwargs).1 k = kwargs k := by
  induction slots with
  | nil => intro _ _ hk _; cases hk
  | cons s rest ih =>
    intro attrs kwargs hk hnd
    simp only [genericInitLoop]
    rcases List.mem_cons.mp hk with rfl | hmem
    · rw [genericInitLoop_fst_not_mem rest _ _ _ (List.nodup_cons.mp hnd).1]
      simp
    · have hns : k ≠ s := fun e => (List.nodup_cons.mp hnd).1 (e ▸ hmem)
      rw [ih _ _ hmem (List.nodup_cons.mp hnd).2]
      simp [hns]

/-- C10: for a model generated with the default initializer, constructing an
instance from keyword arguments sets each declared slot attribute to the
corresponding keyword value when supplied (and to `None`, modelled as
`none`, when absent), and forwards to the base initializer exactly the
keyword arguments whose names were not consumed by the slots. -/
theorem generic_init_spec {F V : Type} (baseFields : List (String × F))
    (name handler msg_type : String) (fields : List (String × F))
    (m : ModelType) (s : SchemaType F)
    (h : generate_model_schema baseFields name handler msg_type (SchemaArg.dict fields) =
      Except.ok (m, s))
    (hnd : m.slots.Nodup) (kwargs : String → Option V) :
    (∀ a ∈ m.slots, (generic_init m.slots kwargs).1 a = kwargs a) ∧
    (∀ k, (generic_init m.slots kwargs).2 k = if k ∈ m.slots then none else kwargs k) := by
  constructor
  · intro a ha
    exact genericInitLoop_fst_mem _ _ _ _ ha hnd
  · intro k
    exact genericInitLoop_snd _ _ _ _

/-- Witness for C10 at a concrete generated model and keyword set: a
supplied slot gets its value, an unconsumed keyword is forwarded, and an
absent slot is set to `none`. -/
theorem generic_init_spec_witness :
    (generic_init ["a", "b"] (fun k => if k = "a" then some (1 : Nat) else none)).1 "a" =
      some 1 ∧
    (generic_init ["a", "b"] (fun k => if k = "a" then some (1 : Nat) else none)).2 "a" =
      none ∧
    (generic_init ["a", "b"] (fun k => if k = "a" then some (1 : Nat) else none)).1 "b" =
      none := by
  have h := generic_init_spec ([] : List (String × Nat)) "XYZ" "mod.XYZHandler" "pfx/xyz"
    [("a", 1), ("b", 2)]
    ⟨["a", "b"], "XYZ", "mod.XYZHandler", "pfx/xyz", "XYZSchema"⟩
    ⟨"XYZSchema", [("a", 1), ("b", 2)],
      ⟨["a", "b"], "XYZ", "mod.XYZHandler", "pfx/xyz", "XYZSchema"⟩⟩
    rfl (by decide) (fun k => if k = "a" then some (1 : Nat) else none)
  refine ⟨?_, ?_, ?_⟩
  · simpa using h.1 "a" (by decide)
  · simpa using h.2 "a"
  · simpa using h.1 "b" (by decide)
